import Mathlib

/-!
Shallow embedding of `src/lib/logger/logger.go` (package `logger` of
kirinse/go-proxies): a leveled logging facility.  Pure formatting code is
translated to Lean functions; the effectful parts (the channel send to the
background worker, `os.Exit`) are made explicit: `Output` returns both its Go
error value and the line it would send on `logch` (if any), and `Fatal`
returns the ordered list of observable events it performs.  Go `int` is
modelled as `Int` where sign matters (priorities, widths, call depths, line
numbers) and the flag bitset as `Nat` with Lean's bitwise operators.
-/

namespace GoLogger

/-! ### Flag bits (logger.go lines 62-74) -/

def Ldate : Nat := 1
def Ltime : Nat := 2
def Lmicroseconds : Nat := 4
def Llongfile : Nat := 8
def Lshortfile : Nat := 16
def Lsyslog : Nat := 32
def LstdFlags : Nat := Ldate ||| Ltime

/-! ### Priorities (logger.go lines 83-93); `type Priority int` -/

abbrev Priority := Int

def LOG_NONE : Priority := 0
def LOG_DEBUG : Priority := 1
def LOG_INFO : Priority := 2
def LOG_WARNING : Priority := 3
def LOG_ERR : Priority := 4
def LOG_CRIT : Priority := 5
def LOG_EMERG : Priority := 6

/-! ### itoa (logger.go lines 208-226)

The Go loop assembles decimal digits in reverse order into a fixed array
`var b [32]byte`, writing at `b[bp]` with `bp` decremented each iteration,
until `u == 0 && wid <= 0`.  A 33rd iteration decrements `bp` to -1 and the
write `b[bp]` panics with an index-out-of-range error; we model that panic
as `none`.  We translate the loop with an explicit fuel argument (it runs at
most `u + max wid 0 + 1` iterations) so the definition is structurally
recursive and kernel-reducible; `bp` counts the free bytes remaining in the
32-byte buffer.
-/

def digitChar (d : Nat) : Char := Char.ofNat (48 + d)

def itoaLoop : Nat → Nat → Int → Nat → List Char → Option (List Char)
  | 0, _, _, _, acc => some acc
  | fuel + 1, u, wid, bp, acc =>
    if u > 0 ∨ wid > 0 then
      if bp = 0 then none
      else itoaLoop fuel (u / 10) (wid - 1) (bp - 1) (digitChar (u % 10) :: acc)
    else some acc

/-- Go's `itoa(i, wid)` for non-negative `i` (the Go code casts `i` to
`uint`; all call sites in this package pass non-negative values).  The
result is `none` when the Go code panics: whenever the loop needs more than
the 32 bytes of its buffer, i.e. `max (number of digits of i) wid > 32` and
the bare-zero special case does not apply. -/
def itoa (i : Nat) (wid : Int) : Option String :=
  if i = 0 ∧ wid ≤ 1 then some "0"
  else (itoaLoop (i + wid.toNat + 1) i wid 32 []).map String.mk

/-- Total rendering used on the header path below: `formatHeader` calls
`itoa` at widths 4, 2 and 6 on time components, and every value a Go
`time.Time` can yield there has far fewer than 32 digits, so those calls
never reach the buffer panic; `itoaH` collapses the (there unreachable)
panic case to `""` so the header remains a plain string. -/
def itoaH (i : Nat) (wid : Int) : String := (itoa i wid).getD ""

/-! Specification-side rendering, used to state claim C9: plain decimal
digits and zero-padding to a fixed width. -/

/-- Decimal digit list of `n` (most significant first); `decChars 0 = ['0']`. -/
def decChars (n : Nat) : List Char :=
  if n < 10 then [digitChar n]
  else decChars (n / 10) ++ [digitChar (n % 10)]
termination_by n
decreasing_by
  simp_wf
  exact Nat.div_lt_self (by omega) (by omega)

def decimalString (n : Nat) : String := String.mk (decChars n)

/-- Left-pad a string with zeros up to width `wid` (no-op if `wid` is at most
the length, in particular if `wid` is negative). -/
def zeroPadTo (wid : Int) (s : String) : String :=
  String.mk (List.replicate (wid.toNat - s.length) '0' ++ s.toList)

/-- The behaviour claim C9 ascribes to `itoa`: decimal, zero-padded to fixed
width `wid`, except that `i = 0` with `wid ≤ 1` renders as a bare "0". -/
def itoaSpec (i : Nat) (wid : Int) : String :=
  if i = 0 ∧ wid ≤ 1 then "0" else zeroPadTo wid (decimalString i)

/-! ### Time values

`formatHeader` reads `t.Date()`, `t.Clock()` and `t.Nanosecond()` from a Go
`time.Time`; we model the time by those seven components directly. -/

structure GoTime where
  year : Nat
  month : Nat
  day : Nat
  hour : Nat
  minute : Nat
  sec : Nat
  nsec : Nat

/-! ### The Logger (logger.go lines 135-142)

Fields `mu`, `out` and `logch` carry no formatting-relevant state: the mutex
and channel are concurrency plumbing and `out` is the opaque destination.
The Go field `prefix` is named `pfx` here (`prefix` is reserved in Lean). -/

structure Logger where
  prio : Priority
  pfx : String
  flag : Nat

/-- Translation of `formatHeader` (logger.go lines 228-259). -/
def Logger.formatHeader (l : Logger) (t : GoTime) : String :=
  if l.flag &&& (Ldate ||| Ltime ||| Lmicroseconds) ≠ 0 then
    (if l.flag &&& Ldate ≠ 0 then
       itoaH t.year 4 ++ "/" ++ itoaH t.month 2 ++ "/" ++ itoaH t.day 2
     else "") ++
    (if l.flag &&& (Ltime ||| Lmicroseconds) ≠ 0 then
       " " ++ itoaH t.hour 2 ++ ":" ++ itoaH t.minute 2 ++ ":" ++ itoaH t.sec 2 ++
       (if l.flag &&& Lmicroseconds ≠ 0 then "." ++ itoaH (t.nsec / 1000) 6 else "")
     else "") ++ " "
  else ""

/-! ### Output (logger.go lines 267-318)

`runtime.Caller(calldepth)` is host stack introspection; we model its result
as an `Option CallerInfo` input (`none` models `ok == false`).  The Go
function's only effects are the channel send `l.logch <- buf` and its `error`
return value; `OutputRes` records both. -/

structure CallerInfo where
  file : String
  line : Int

/-- The trimming loop of `Output` under `Lshortfile`: scan the file name
backwards for a `/` at an index greater than 0 and keep what follows it.
`findLastSlash cs i` returns the largest index `j ≥ i` (with `j > 0`) at
which `cs` holds a `/`, where `i` is the index of the head of `cs`. -/
def findLastSlash : List Char → Nat → Option Nat
  | [], _ => none
  | c :: cs, i =>
    match findLastSlash cs (i + 1) with
    | some j => some j
    | none => if c = '/' ∧ i > 0 then some i else none

def shortFile (file : String) : String :=
  match findLastSlash file.toList 0 with
  | some i => String.mk (file.toList.drop (i + 1))
  | none => file

structure OutputRes where
  err : Option String
  line : Option String
deriving DecidableEq

/-- The `<N>:` tag plus timestamp header that `Output` prepends when the
`Lsyslog` flag is clear (logger.go lines 274-278). -/
def Logger.headerPart (l : Logger) (prio : Priority) (now : GoTime) : String :=
  if l.flag &&& Lsyslog = 0 then
    "<" ++ toString prio ++ ">:" ++ l.formatHeader now
  else ""

/-- The `(file:line) ` caller-info fragment (logger.go lines 280-302);
empty when `calldepth ≤ 0` or neither file flag is set. -/
def Logger.finfoPart (l : Logger) (calldepth : Int) (caller : Option CallerInfo) : String :=
  if calldepth > 0 then
    if l.flag &&& (Lshortfile ||| Llongfile) ≠ 0 then
      let fl : String × Int :=
        match caller with
        | some c => (c.file, c.line)
        | none => ("???", 0)
      let file := if l.flag &&& Lshortfile ≠ 0 then shortFile fl.1 else fl.1
      "(" ++ file ++ ":" ++ toString fl.2 ++ ") "
    else ""
  else ""

/-- The suffix appended after the message: one newline unless the message
already ends in one (logger.go lines 312-314; the Go code inspects the last
byte `s[len(s)-1]`, which equals the last character for `\n`). -/
def nlSuffix (s : String) : String :=
  if s.back ≠ '\n' then "\n" else ""

/-- Translation of `Output` (logger.go lines 267-318). -/
def Logger.Output (l : Logger) (calldepth : Int) (prio : Priority) (s : String)
    (now : GoTime) (caller : Option CallerInfo) : OutputRes :=
  if s.length = 0 then ⟨none, none⟩
  else
    let buf := l.headerPart prio now
    let finfo := l.finfoPart calldepth caller
    let buf := buf ++ (if finfo.length > 0 then finfo else "") ++ s ++ nlSuffix s
    ⟨none, some buf⟩

/-! ### Backtrace (logger.go lines 324-353)

`runtime.Callers(3, pc)` with a 64-element array is modelled by taking the
first 64 entries of an abstract caller stack; each captured program counter
resolves (`runtime.FuncForPC`) either to `none` (rendered `*unknown*`) or to
a file, line and function name. -/

structure BTFrame where
  file : String
  line : Int
  fname : String

def renderFrame : Option BTFrame → String
  | none => "*unknown*"
  | some f => f.file ++ ":" ++ toString f.line ++ " [" ++ f.fname ++ "]"

/-- Capture model: `runtime.Callers(3, pc)` with `len(pc) = 64` captures at most 64 frames. -/
def captureFrames (stack : List (Option BTFrame)) : List (Option BTFrame) :=
  stack.take 64

/-- The entries joined by `Backtrace`: the loop renders `n` frames where the
depth/n adjustment of logger.go lines 331-335 leaves `n` frames when
`depth == 0 || depth > n` and `depth` frames otherwise, then a final `"\n"`
entry is appended (line 349). -/
def backtraceEntries (depth : Int) (frames : List (Option BTFrame)) : List String :=
  let n : Int := (frames.length : Int)
  let d : Int := if depth = 0 ∨ depth > n then n else depth
  (frames.take d.toNat).map renderFrame ++ ["\n"]

/-- The single string `Backtrace` sends to `logch` (logger.go lines 351-352). -/
def Backtrace (depth : Int) (frames : List (Option BTFrame)) : String :=
  "Backtrace:\n    " ++ String.intercalate "\n    " (backtraceEntries depth frames)

/-- The `Backtrace` method as called on a logger: it consults none of the
logger's fields and unconditionally sends its block to `logch`. -/
def Logger.BacktraceRun (_l : Logger) (depth : Int)
    (stack : List (Option BTFrame)) : Option String :=
  some (Backtrace depth (captureFrames stack))

/-- Translation of `Loggable` (logger.go lines 357-359). -/
def Logger.Loggable (l : Logger) (prio : Priority) : Bool :=
  decide (l.prio ≥ LOG_NONE) && decide (prio ≥ l.prio)

/-! ### Leveled methods (logger.go lines 393-434)

`fmt.Sprintf(format, v...)` is opaque string formatting; `msg` stands for its
result.  The returned `Bool` records whether the method reached the
`fmt.Sprintf` call (i.e. whether the message was formatted at all). -/

/-- Method `Debug` (logger.go lines 429-434): priority DEBUG, calldepth 2. -/
def Logger.Debug (l : Logger) (msg : String) (now : GoTime)
    (caller : Option CallerInfo) : Bool × OutputRes :=
  if l.Loggable LOG_DEBUG then (true, l.Output 2 LOG_DEBUG msg now caller)
  else (false, ⟨none, none⟩)

/-- Method `Info` (logger.go lines 420-425): priority INFO, calldepth 0. -/
def Logger.Info (l : Logger) (msg : String) (now : GoTime)
    (caller : Option CallerInfo) : Bool × OutputRes :=
  if l.Loggable LOG_INFO then (true, l.Output 0 LOG_INFO msg now caller)
  else (false, ⟨none, none⟩)

/-- Method `Warn` (logger.go lines 411-416): priority WARNING, calldepth 0. -/
def Logger.Warn (l : Logger) (msg : String) (now : GoTime)
    (caller : Option CallerInfo) : Bool × OutputRes :=
  if l.Loggable LOG_WARNING then (true, l.Output 0 LOG_WARNING msg now caller)
  else (false, ⟨none, none⟩)

/-- Method `Error` (logger.go lines 403-408; the source spells the keyword `func` as
`eunc` there, an evident typo — the declared function is modelled):
priority ERR, calldepth 2. -/
def Logger.Error (l : Logger) (msg : String) (now : GoTime)
    (caller : Option CallerInfo) : Bool × OutputRes :=
  if l.Loggable LOG_ERR then (true, l.Output 2 LOG_ERR msg now caller)
  else (false, ⟨none, none⟩)

/-- Method `Crit` (logger.go lines 394-399): priority CRIT, calldepth 2. -/
def Logger.Crit (l : Logger) (msg : String) (now : GoTime)
    (caller : Option CallerInfo) : Bool × OutputRes :=
  if l.Loggable LOG_CRIT then (true, l.Output 2 LOG_CRIT msg now caller)
  else (false, ⟨none, none⟩)

/-- Index of the five leveled methods, for quantifying over them. -/
inductive LMethod
  | debug
  | info
  | warn
  | error
  | crit
deriving DecidableEq

/-- The documented priority of each leveled method. -/
def LMethod.prio : LMethod → Priority
  | .debug => LOG_DEBUG
  | .info => LOG_INFO
  | .warn => LOG_WARNING
  | .error => LOG_ERR
  | .crit => LOG_CRIT

/-- Run the chosen leveled method. -/
def LMethod.run (m : LMethod) (l : Logger) (msg : String) (now : GoTime)
    (caller : Option CallerInfo) : Bool × OutputRes :=
  match m with
  | .debug => l.Debug msg now caller
  | .info => l.Info msg now caller
  | .warn => l.Warn msg now caller
  | .error => l.Error msg now caller
  | .crit => l.Crit msg now caller

/-! ### Fatal (logger.go lines 376-380)

`Fatal` performs, in order: `l.Output(2, LOG_EMERG, msg)` (whose only effect
is the channel send, present iff the line is non-empty), `l.Backtrace(0)`
(always a send), then `os.Exit(1)`.  The trace of these observable events is
returned; the final `exitEv` models the non-returning process termination. -/

inductive LogEvent
  | emit (calldepth : Int) (prio : Priority) (line : String)
  | btEv (depth : Int) (block : String)
  | exitEv (code : Int)
deriving DecidableEq

def Logger.Fatal (l : Logger) (msg : String) (now : GoTime)
    (caller : Option CallerInfo) (stack : List (Option BTFrame)) : List LogEvent :=
  (match (l.Output 2 LOG_EMERG msg now caller).line with
   | some ln => [LogEvent.emit 2 LOG_EMERG ln]
   | none => []) ++
  [LogEvent.btEv 0 (Backtrace 0 (captureFrames stack)), LogEvent.exitEv 1]

/-! ### Constructors (logger.go lines 168-206)

`New`, `NewFilelog` and `NewSyslog` open destinations (I/O); `NewLogger`
(lines 200-206) is the pure dispatch between them, which we model by the
constructor invocation it performs, arguments included. -/

inductive LoggerKind
  | syslogL (prio : Priority) (pfx : String) (flag : Nat)
  | fileL (path : String) (prio : Priority) (pfx : String) (flag : Nat)
deriving DecidableEq

/-- Model of the dispatch test `strings.ToUpper(name) == "SYSLOG"`.  Go's
`strings.ToUpper` applies the Unicode simple case mapping rune by rune,
preserving the rune count, so the comparison holds iff the name consists of
exactly six runes whose simple uppercase mappings spell S, Y, S, L, O, G.
The complete preimage of each of these letters under the simple uppercase
mapping is: for S the codepoints s, S and U+017F (LATIN SMALL LETTER LONG
S, whose uppercase is S); for Y, L, O and G exactly the ASCII lower- and
upper-case letter (no other codepoint maps onto them). -/
def upperEqSyslog (name : String) : Bool :=
  match name.toList with
  | [c1, c2, c3, c4, c5, c6] =>
    decide ((c1 = 'S' ∨ c1 = 's' ∨ c1 = 'ſ') ∧ (c2 = 'Y' ∨ c2 = 'y') ∧
      (c3 = 'S' ∨ c3 = 's' ∨ c3 = 'ſ') ∧ (c4 = 'L' ∨ c4 = 'l') ∧
      (c5 = 'O' ∨ c5 = 'o') ∧ (c6 = 'G' ∨ c6 = 'g'))
  | _ => false

/-- Translation of `NewLogger` (logger.go lines 200-206): dispatch to `NewSyslog` when the
upper-cased name is "SYSLOG", else to `NewFilelog` with an empty prefix. -/
def NewLogger (name : String) (prio : Priority) (pfx : String) (flag : Nat) : LoggerKind :=
  if upperEqSyslog name then LoggerKind.syslogL prio pfx flag
  else LoggerKind.fileL name prio "" flag

/-! ### Prefix accessors (logger.go lines 469-480) -/

/-- Getter `Prefix` (the Go name; `prefix` is reserved in Lean, hence `Pfx`). -/
def Logger.Pfx (l : Logger) : String := l.pfx

/-- Setter `SetPrefix`. -/
def Logger.SetPfx (l : Logger) (p : String) : Logger := ⟨l.prio, p, l.flag⟩

/-! ### Auxiliary predicates used to state the claims -/

/-- A string ends in exactly one newline: its last character is a newline and
the character before that (if any) is not. -/
def endsInExactlyOneNL (s : String) : Bool :=
  decide (s.toList.getLast? = some '\n') &&
  decide (s.toList.dropLast.getLast? ≠ some '\n')

/-! ## Helper lemmas -/

theorem string_length_eq_zero_iff (s : String) : s.length = 0 ↔ s = "" := by
  cases s with | mk data =>
    cases data with
    | nil => simp [String.length]
    | cons c cs =>
      simp only [String.length]
      constructor
      · intro h; simp at h
      · intro h
        have hd : (String.mk (c :: cs)).data = ("" : String).data := by rw [h]
        simp at hd

theorem decChars_lt {n : Nat} (h : n < 10) : decChars n = [digitChar n] := by
  unfold decChars
  rw [if_pos h]

theorem decChars_ge {n : Nat} (h : ¬ n < 10) :
    decChars n = decChars (n / 10) ++ [digitChar (n % 10)] := by
  conv_lhs => rw [decChars]
  rw [if_neg h]

/-- Every decimal rendering has at least one digit. -/
theorem decChars_length_pos (n : Nat) : 1 ≤ (decChars n).length := by
  by_cases h : n < 10
  · rw [decChars_lt h]; simp
  · rw [decChars_ge h]; simp

/-- Digit counts against powers of ten: `decChars n` has at most `k + 1`
digits iff `n < 10 ^ (k + 1)`. -/
theorem decChars_length_le_iff : ∀ (k : Nat) (n : Nat),
    (decChars n).length ≤ k + 1 ↔ n < 10 ^ (k + 1) := by
  intro k
  induction k with
  | zero =>
    intro n
    have hp : (10 : Nat) ^ (0 + 1) = 10 := by norm_num
    rw [hp]
    by_cases h : n < 10
    · rw [decChars_lt h]
      simpa using h
    · rw [decChars_ge h]
      have h1 := decChars_length_pos (n / 10)
      simp only [List.length_append, List.length_singleton]
      omega
  | succ k ih =>
    intro n
    by_cases h : n < 10
    · rw [decChars_lt h]
      have hbig : n < 10 ^ (k + 1 + 1) := by
        calc n < 10 := h
        _ ≤ 10 ^ (k + 1 + 1) := by
          conv_lhs => rw [show (10 : Nat) = 10 ^ 1 from by norm_num]
          exact Nat.pow_le_pow_right (by omega) (by omega)
      simp [hbig]
    · rw [decChars_ge h]
      have hdiv := ih (n / 10)
      have hstep : n / 10 < 10 ^ (k + 1) ↔ n < 10 ^ (k + 1 + 1) := by
        rw [Nat.div_lt_iff_lt_mul (by omega),
          show (10 : Nat) ^ (k + 1 + 1) = 10 ^ (k + 1) * 10 from pow_succ 10 (k + 1)]
      simp only [List.length_append, List.length_singleton]
      rw [← hstep, ← hdiv]
      omega

/-- Once `u` has reached 0, the `itoa` loop emits one `'0'` per remaining
width unit, panicking iff the remaining buffer space `bp` runs out. -/
theorem itoaLoop_zero (fuel : Nat) : ∀ (wid : Int) (bp : Nat) (acc : List Char),
    wid.toNat ≤ fuel →
    itoaLoop fuel 0 wid bp acc =
      if wid.toNat ≤ bp then some (List.replicate wid.toNat '0' ++ acc) else none := by
  induction fuel with
  | zero =>
    intro wid bp acc hw
    have h0 : wid.toNat = 0 := by omega
    simp [itoaLoop, h0]
  | succ f ih =>
    intro wid bp acc hw
    by_cases hwid : wid > 0
    · rw [itoaLoop, if_pos (Or.inr hwid)]
      by_cases hbp : bp = 0
      · rw [if_pos hbp, if_neg (by omega : ¬ wid.toNat ≤ bp)]
      · rw [if_neg hbp, ih _ _ _ (by omega)]
        rw [show digitChar (0 % 10) = '0' from by decide]
        by_cases hle : wid.toNat ≤ bp
        · rw [if_pos (by omega : (wid - 1).toNat ≤ bp - 1), if_pos hle]
          have h3 : wid.toNat = (wid - 1).toNat + 1 := by omega
          rw [h3, List.replicate_succ', List.append_assoc]
          rfl
        · rw [if_neg (by omega : ¬ (wid - 1).toNat ≤ bp - 1), if_neg hle]
    · rw [itoaLoop, if_neg (by omega)]
      have h0 : wid.toNat = 0 := by omega
      simp [h0]

/-- For positive `u`, given enough fuel, the `itoa` loop produces the
decimal digits of `u` preceded by zero-padding up to width `wid` when the
32-byte buffer (of which `bp` bytes remain) suffices, and panics otherwise. -/
theorem itoaLoop_pos : ∀ (u : Nat), 0 < u →
    ∀ (fuel : Nat) (wid : Int) (bp : Nat) (acc : List Char), u + wid.toNat ≤ fuel →
      itoaLoop fuel u wid bp acc =
        if max (decChars u).length wid.toNat ≤ bp then
          some (List.replicate (wid.toNat - (decChars u).length) '0' ++ (decChars u ++ acc))
        else none := by
  intro u
  induction u using Nat.strong_induction_on with
  | _ u ih =>
    intro hu fuel wid bp acc hfuel
    match fuel with
    | 0 => omega
    | f + 1 =>
      rw [itoaLoop, if_pos (Or.inl hu)]
      by_cases hbp : bp = 0
      · have hlen := decChars_length_pos u
        rw [if_pos hbp, if_neg (by omega : ¬ max (decChars u).length wid.toNat ≤ bp)]
      · rw [if_neg hbp]
        by_cases h10 : u < 10
        · rw [Nat.div_eq_of_lt h10, Nat.mod_eq_of_lt h10,
              itoaLoop_zero f (wid - 1) (bp - 1) _ (by omega)]
          rw [decChars_lt h10]
          simp only [List.length_singleton]
          by_cases hfit : (wid - 1).toNat ≤ bp - 1
          · rw [if_pos hfit, if_pos (by omega : max 1 wid.toNat ≤ bp)]
            have h1 : (wid - 1).toNat = wid.toNat - 1 := by omega
            rw [h1]
            simp
          · rw [if_neg hfit, if_neg (by omega : ¬ max 1 wid.toNat ≤ bp)]
        · have hlt : u / 10 < u := Nat.div_lt_self hu (by omega)
          have hdivpos : 0 < u / 10 := Nat.div_pos (by omega) (by omega)
          rw [ih (u / 10) hlt hdivpos f (wid - 1) (bp - 1)
              (digitChar (u % 10) :: acc) (by omega)]
          rw [decChars_ge h10]
          simp only [List.length_append, List.length_singleton]
          by_cases hfit : max (decChars (u / 10)).length (wid - 1).toNat ≤ bp - 1
          · rw [if_pos hfit,
              if_pos (by omega : max ((decChars (u / 10)).length + 1) wid.toNat ≤ bp)]
            have h2 : (wid - 1).toNat - (decChars (u / 10)).length
                = wid.toNat - ((decChars (u / 10)).length + 1) := by omega
            rw [h2]
            simp [List.append_assoc]
          · rw [if_neg hfit,
              if_neg (by omega : ¬ max ((decChars (u / 10)).length + 1) wid.toNat ≤ bp)]

/-- The exact line `Output` sends to `logch` for a non-empty message: the
(possibly empty) tag-plus-header, the (possibly empty) caller-info fragment,
the message verbatim, and the newline suffix. -/
theorem output_line_formula (l : Logger) (cd : Int) (p : Priority) (s : String)
    (now : GoTime) (caller : Option CallerInfo) (hs : s ≠ "") :
    (l.Output cd p s now caller).line =
      some (l.headerPart p now ++
        (if (l.finfoPart cd caller).length > 0 then l.finfoPart cd caller else "") ++
        s ++ nlSuffix s) := by
  unfold Logger.Output
  rw [if_neg (by simpa [string_length_eq_zero_iff] using hs)]

/-! ## Claim theorems -/

/-- C9, counterexample to the claim as stated: at width 40 the Go loop
needs 40 bytes, overruns its fixed 32-byte buffer and panics with an index
out of range instead of returning the zero-padded rendering (`none` models
the panic), while width 32 still fits and renders. -/
theorem c9_cex_buffer_limit : itoa 5 40 = none ∧ (itoa 5 32).isSome = true := by
  decide

/-- C9, amended: for every non-negative integer `i` and width `wid` whose
rendering fits the 32-byte buffer (at most 32 decimal digits, width at most
32), `itoa i wid` renders `i` in decimal zero-padded to fixed width `wid`,
except that when `i = 0` and `wid ≤ 1` it returns the bare string "0"; when
the rendering does not fit, the code panics (index out of range) instead of
returning. -/
theorem c9_itoa_fixed_width (i : Nat) (wid : Int) :
    (i < 10 ^ 32 ∧ wid ≤ 32 → itoa i wid = some (itoaSpec i wid)) ∧
    (10 ^ 32 ≤ i ∨ 32 < wid → itoa i wid = none) := by
  have hp32 : 0 < 10 ^ 32 := pow_pos (by norm_num) 32
  have hlen32 : (decChars i).length ≤ 32 ↔ i < 10 ^ 32 := by
    have h := decChars_length_le_iff 31 i
    norm_num at h
    exact h
  constructor
  · rintro ⟨hi, hw⟩
    unfold itoa itoaSpec
    by_cases h : i = 0 ∧ wid ≤ 1
    · rw [if_pos h, if_pos h]
    · rw [if_neg h, if_neg h]
      by_cases hz : i = 0
      · subst hz
        rw [itoaLoop_zero _ _ _ _ (by omega), if_pos (by omega : wid.toNat ≤ 32)]
        unfold zeroPadTo decimalString
        rw [decChars_lt (by omega), show digitChar 0 = '0' from by decide]
        have h2 : wid.toNat = (wid.toNat - 1) + 1 := by omega
        have key : List.replicate wid.toNat '0' =
            List.replicate (wid.toNat - 1) '0' ++ ['0'] := by
          conv_lhs => rw [h2]
          exact List.replicate_succ' _ _
        simp [key, show ("0" : String).length = 1 from rfl]
      · rw [itoaLoop_pos i (by omega) _ _ _ _ (by omega)]
        have hfit : max (decChars i).length wid.toNat ≤ 32 := by
          have hd : (decChars i).length ≤ 32 := hlen32.mpr hi
          omega
        rw [if_pos hfit]
        unfold zeroPadTo decimalString
        simp
  · intro hbad
    unfold itoa
    have hns : ¬ (i = 0 ∧ wid ≤ 1) := by
      rintro ⟨hz, hw1⟩
      rcases hbad with hb | hb
      · omega
      · omega
    rw [if_neg hns]
    by_cases hz : i = 0
    · subst hz
      have hw : 32 < wid := by
        rcases hbad with hb | hb
        · omega
        · exact hb
      rw [itoaLoop_zero _ _ _ _ (by omega), if_neg (by omega : ¬ wid.toNat ≤ 32)]
      rfl
    · rw [itoaLoop_pos i (by omega) _ _ _ _ (by omega)]
      have hnofit : ¬ max (decChars i).length wid.toNat ≤ 32 := by
        rcases hbad with hb | hb
        · have hd : ¬ (decChars i).length ≤ 32 := fun hc => by
            have := hlen32.mp hc
            omega
          omega
        · omega
      rw [if_neg hnofit]
      rfl

/-- Witness for the amended C9: a fitting input renders zero-padded and an
overflowing width panics, both through the theorem. -/
theorem c9_itoa_fixed_width_witness :
    itoa 5 3 = some (itoaSpec 5 3) ∧ itoa 5 40 = none :=
  ⟨(c9_itoa_fixed_width 5 3).1 (by decide),
   (c9_itoa_fixed_width 5 40).2 (by decide)⟩

/-- C2: for every calldepth, priority and message, `Output` returns success
(its Go error value is `nil`); the empty message is a no-op (nothing is
enqueued) that still returns success. -/
theorem c2_output_always_success (l : Logger) (calldepth : Int) (prio : Priority)
    (s : String) (now : GoTime) (caller : Option CallerInfo) :
    (l.Output calldepth prio s now caller).err = none ∧
    l.Output calldepth prio "" now caller = ⟨none, none⟩ := by
  constructor
  · unfold Logger.Output
    by_cases h : s.length = 0
    · rw [if_pos h]
    · rw [if_neg h]
  · rfl

/-- C3, counterexample to the claim as stated: the message "x\n\n" is
non-empty, the line `Output` enqueues for it (on a syslog-flagged logger with
calldepth 0, so the line is the message itself) ends in two newlines, not
exactly one. -/
theorem c3_cex_double_newline :
    (Logger.Output ⟨LOG_NONE, "", Lsyslog⟩ 0 LOG_ERR "x\n\n"
        ⟨2009, 1, 23, 1, 23, 23, 123123000⟩ none).line = some "x\n\n" ∧
    endsInExactlyOneNL "x\n\n" = false := by decide

/-- C3, amended: for every non-empty message, a message whose last character
is not a newline gains exactly one appended newline, and a message already
ending in a newline gains none (so never two are appended) — but the line
ends in exactly one newline only as far as the message itself does. -/
theorem c3_newline_discipline (l : Logger) (calldepth : Int) (prio : Priority)
    (s : String) (now : GoTime) (caller : Option CallerInfo) (hs : s ≠ "") :
    (s.back ≠ '\n' →
      (l.Output calldepth prio s now caller).line =
        some (l.headerPart prio now ++
          (if (l.finfoPart calldepth caller).length > 0 then l.finfoPart calldepth caller
           else "") ++ s ++ "\n")) ∧
    (s.back = '\n' →
      (l.Output calldepth prio s now caller).line =
        some (l.headerPart prio now ++
          (if (l.finfoPart calldepth caller).length > 0 then l.finfoPart calldepth caller
           else "") ++ s)) := by
  constructor
  · intro hb
    rw [output_line_formula l calldepth prio s now caller hs]
    rw [nlSuffix, if_pos hb]
  · intro hb
    rw [output_line_formula l calldepth prio s now caller hs]
    have hnl : nlSuffix s = "" := by rw [nlSuffix, if_neg (by simp [hb])]
    rw [hnl, String.append_empty]

/-- Witness for the amended C3 at concrete inputs. -/
theorem c3_newline_discipline_witness :
    (Logger.Output ⟨LOG_NONE, "", Lsyslog⟩ 0 LOG_ERR "ab"
        ⟨2009, 1, 23, 1, 23, 23, 123123000⟩ none).line =
      some (Logger.headerPart ⟨LOG_NONE, "", Lsyslog⟩ LOG_ERR
          ⟨2009, 1, 23, 1, 23, 23, 123123000⟩ ++
        (if (Logger.finfoPart ⟨LOG_NONE, "", Lsyslog⟩ 0 none).length > 0 then
           Logger.finfoPart ⟨LOG_NONE, "", Lsyslog⟩ 0 none
         else "") ++ "ab" ++ "\n") :=
  (c3_newline_discipline ⟨LOG_NONE, "", Lsyslog⟩ 0 LOG_ERR "ab"
    ⟨2009, 1, 23, 1, 23, 23, 123123000⟩ none (by decide)).1 (by decide)

/-- C4: for a non-empty message, if `Lsyslog` is set the line built by
`Output` carries no `<N>:` priority tag and no timestamp header (it is just
the caller-info fragment plus the message, and is independent of the clock);
if `Lsyslog` is clear, the line begins with `<N>:` followed by the
`formatHeader` output. -/
theorem c4_syslog_tagging (l : Logger) (calldepth : Int) (prio : Priority)
    (s : String) (t t2 : GoTime) (caller : Option CallerInfo) (hs : s ≠ "") :
    (l.flag &&& Lsyslog ≠ 0 →
      (l.Output calldepth prio s t caller).line =
        some ((if (l.finfoPart calldepth caller).length > 0 then
                 l.finfoPart calldepth caller
               else "") ++ s ++ nlSuffix s) ∧
      l.Output calldepth prio s t caller = l.Output calldepth prio s t2 caller) ∧
    (l.flag &&& Lsyslog = 0 →
      (l.Output calldepth prio s t caller).line =
        some ("<" ++ toString prio ++ ">:" ++ l.formatHeader t ++
          (if (l.finfoPart calldepth caller).length > 0 then
             l.finfoPart calldepth caller
           else "") ++ s ++ nlSuffix s)) := by
  constructor
  · intro hflag
    have hhdr : ∀ tm : GoTime, l.headerPart prio tm = "" := by
      intro tm
      rw [Logger.headerPart, if_neg hflag]
    constructor
    · rw [output_line_formula l calldepth prio s t caller hs, hhdr, String.empty_append]
    · rw [Logger.Output]
      conv_rhs => rw [Logger.Output]
      rw [hhdr t, hhdr t2]
  · intro hflag
    rw [output_line_formula l calldepth prio s t caller hs]
    rw [Logger.headerPart, if_pos hflag]

/-- Witness for C4 at concrete inputs (syslog flag set). -/
theorem c4_syslog_tagging_witness :
    (Logger.Output ⟨LOG_NONE, "", Lsyslog⟩ 0 LOG_WARNING "m"
        ⟨2009, 1, 23, 1, 23, 23, 123123000⟩ none).line =
      some ((if (Logger.finfoPart ⟨LOG_NONE, "", Lsyslog⟩ 0 none).length > 0 then
               Logger.finfoPart ⟨LOG_NONE, "", Lsyslog⟩ 0 none
             else "") ++ "m" ++ nlSuffix "m") ∧
    Logger.Output ⟨LOG_NONE, "", Lsyslog⟩ 0 LOG_WARNING "m"
        ⟨2009, 1, 23, 1, 23, 23, 123123000⟩ none =
      Logger.Output ⟨LOG_NONE, "", Lsyslog⟩ 0 LOG_WARNING "m"
        ⟨2024, 5, 6, 7, 8, 9, 10⟩ none :=
  (c4_syslog_tagging ⟨LOG_NONE, "", Lsyslog⟩ 0 LOG_WARNING "m"
    ⟨2009, 1, 23, 1, 23, 23, 123123000⟩ ⟨2024, 5, 6, 7, 8, 9, 10⟩ none
    (by decide)).1 (by decide)

/-- C5: `formatHeader` on the timestamp 2009-01-23 01:23:23.123123 with flags
`Ldate ||| Ltime ||| Lmicroseconds` is exactly "2009/01/23 01:23:23.123123 ",
and with none of those three flags set it is empty for every timestamp. -/
theorem c5_formatHeader_roundtrip :
    Logger.formatHeader ⟨LOG_NONE, "", Ldate ||| Ltime ||| Lmicroseconds⟩
        ⟨2009, 1, 23, 1, 23, 23, 123123000⟩ = "2009/01/23 01:23:23.123123 " ∧
    ∀ (l : Logger) (t : GoTime),
      l.flag &&& (Ldate ||| Ltime ||| Lmicroseconds) = 0 → l.formatHeader t = "" := by
  constructor
  · decide
  · intro l t h
    rw [Logger.formatHeader, if_neg (by simp [h])]

/-- Witness for C5's universally quantified part: a syslog-only flag set has
none of the three timestamp bits, so the header is empty. -/
theorem c5_formatHeader_roundtrip_witness :
    Logger.formatHeader ⟨LOG_NONE, "", Lsyslog⟩ ⟨2009, 1, 23, 1, 23, 23, 123123000⟩ = "" :=
  c5_formatHeader_roundtrip.2 ⟨LOG_NONE, "", Lsyslog⟩
    ⟨2009, 1, 23, 1, 23, 23, 123123000⟩ (by decide)

/-- A non-empty message always yields an enqueued line. -/
theorem output_line_isSome (l : Logger) (cd : Int) (p : Priority) (s : String)
    (now : GoTime) (caller : Option CallerInfo) (hs : s ≠ "") :
    (l.Output cd p s now caller).line.isSome = true := by
  rw [output_line_formula l cd p s now caller hs]
  rfl

/-- Characterisation: `Loggable` is exactly the threshold comparison once the threshold lies in
the priority enumeration. -/
theorem loggable_iff (l : Logger) (p : Priority) (h0 : LOG_NONE ≤ l.prio) :
    l.Loggable p = true ↔ l.prio ≤ p := by
  rw [Logger.Loggable]
  simp only [Bool.and_eq_true, decide_eq_true_eq, ge_iff_le]
  exact ⟨fun h => h.2, fun h => ⟨h0, h⟩⟩

/-- C1: for every leveled method with documented priority P and every
threshold T in the enumeration (LOG_NONE through LOG_EMERG), a call on a
logger with threshold T formats its message and enqueues a line iff P ≥ T;
when P < T the call formats nothing and enqueues nothing. -/
theorem c1_leveled_gating (m : LMethod) (l : Logger) (msg : String) (now : GoTime)
    (caller : Option CallerInfo) (h0 : LOG_NONE ≤ l.prio) (_h6 : l.prio ≤ LOG_EMERG)
    (hm : msg ≠ "") :
    ((m.run l msg now caller).1 = true ↔ l.prio ≤ m.prio) ∧
    ((m.run l msg now caller).2.line.isSome = true ↔ l.prio ≤ m.prio) := by
  have key : ∀ (p : Priority) (cd : Int),
      ((((if l.Loggable p then (true, l.Output cd p msg now caller)
          else (false, ⟨none, none⟩)) : Bool × OutputRes)).1 = true ↔ l.prio ≤ p) ∧
      ((((if l.Loggable p then (true, l.Output cd p msg now caller)
          else (false, ⟨none, none⟩)) : Bool × OutputRes)).2.line.isSome = true ↔
        l.prio ≤ p) := by
    intro p cd
    by_cases hp : l.prio ≤ p
    · rw [if_pos ((loggable_iff l p h0).mpr hp)]
      simp [hp, output_line_isSome l cd p msg now caller hm]
    · rw [if_neg (fun hc => hp ((loggable_iff l p h0).mp hc))]
      simp [hp]
  cases m with
  | debug => exact key LOG_DEBUG 2
  | info => exact key LOG_INFO 0
  | warn => exact key LOG_WARNING 0
  | error => exact key LOG_ERR 2
  | crit => exact key LOG_CRIT 2

/-- Witness for C1: a DEBUG call on a logger with threshold INFO is a no-op,
stated through the theorem at that concrete input. -/
theorem c1_leveled_gating_witness :
    ((LMethod.debug.run ⟨LOG_INFO, "", Lsyslog⟩ "m"
        ⟨2009, 1, 23, 1, 23, 23, 123123000⟩ none).1 = true ↔
      LOG_INFO ≤ LMethod.debug.prio) ∧
    ((LMethod.debug.run ⟨LOG_INFO, "", Lsyslog⟩ "m"
        ⟨2009, 1, 23, 1, 23, 23, 123123000⟩ none).2.line.isSome = true ↔
      LOG_INFO ≤ LMethod.debug.prio) :=
  c1_leveled_gating LMethod.debug ⟨LOG_INFO, "", Lsyslog⟩ "m"
    ⟨2009, 1, 23, 1, 23, 23, 123123000⟩ none (by decide) (by decide) (by decide)

/-- C6, counterexample to the claim as stated: with the format string ""
(no arguments) the formatted message is empty, `Output` drops it at its
empty-message guard, and `Fatal` emits no EMERG line at all — the
observable sequence is only the backtrace and the exit, not the claimed
emit-backtrace-exit. -/
theorem c6_cex_empty_format :
    Logger.Fatal ⟨LOG_INFO, "", Lsyslog⟩ ""
        ⟨2009, 1, 23, 1, 23, 23, 123123000⟩ none [none] =
      [LogEvent.btEv 0 (Backtrace 0 (captureFrames [none])),
       LogEvent.exitEv 1] := by
  rfl

/-- C6, amended: `Fatal`, for every format string and every threshold,
ignoring the threshold, performs in order: emit the formatted line at EMERG
with calldepth 2 provided the formatted message is non-empty (an empty
formatted message is dropped by `Output`'s empty-message guard and no line
is emitted), then emit a full (depth-0, all captured frames) backtrace, then
terminate the process with the non-zero status 1; it never returns
(modelled by the trailing exit event). -/
theorem c6_fatal_sequence (l : Logger) (msg : String) (now : GoTime)
    (caller : Option CallerInfo) (stack : List (Option BTFrame)) :
    (msg ≠ "" → ∃ ln, (l.Output 2 LOG_EMERG msg now caller).line = some ln ∧
      l.Fatal msg now caller stack =
        [LogEvent.emit 2 LOG_EMERG ln,
         LogEvent.btEv 0 (Backtrace 0 (captureFrames stack)),
         LogEvent.exitEv 1]) ∧
    (msg = "" → l.Fatal msg now caller stack =
        [LogEvent.btEv 0 (Backtrace 0 (captureFrames stack)),
         LogEvent.exitEv 1]) ∧
    (∀ p : Priority,
      Logger.Fatal ⟨p, l.pfx, l.flag⟩ msg now caller stack =
        l.Fatal msg now caller stack) ∧
    backtraceEntries 0 (captureFrames stack) =
      (captureFrames stack).map renderFrame ++ ["\n"] ∧
    (1 : Int) ≠ 0 := by
  refine ⟨?_, ?_, ?_, ?_, by decide⟩
  · intro hm
    refine ⟨l.headerPart LOG_EMERG now ++
      (if (l.finfoPart 2 caller).length > 0 then l.finfoPart 2 caller else "") ++
      msg ++ nlSuffix msg, output_line_formula l 2 LOG_EMERG msg now caller hm, ?_⟩
    rw [Logger.Fatal, output_line_formula l 2 LOG_EMERG msg now caller hm]
    rfl
  · intro hm
    subst hm
    rfl
  · intro p
    cases l
    rfl
  · rw [backtraceEntries]
    simp

/-- Witness for the amended C6 at concrete inputs (non-empty message). -/
theorem c6_fatal_sequence_witness :
    (∃ ln, (Logger.Output ⟨LOG_INFO, "", Lsyslog⟩ 2 LOG_EMERG "boom"
        ⟨2009, 1, 23, 1, 23, 23, 123123000⟩ none).line = some ln ∧
      Logger.Fatal ⟨LOG_INFO, "", Lsyslog⟩ "boom"
          ⟨2009, 1, 23, 1, 23, 23, 123123000⟩ none [none] =
        [LogEvent.emit 2 LOG_EMERG ln,
         LogEvent.btEv 0 (Backtrace 0 (captureFrames [none])),
         LogEvent.exitEv 1]) :=
  (c6_fatal_sequence ⟨LOG_INFO, "", Lsyslog⟩ "boom"
    ⟨2009, 1, 23, 1, 23, 23, 123123000⟩ none [none]).1 (by decide)

/-- C7: `Backtrace(0)` renders every captured frame (capture is limited to 64
frames); for `0 < depth < available`, exactly `depth` frame lines are
rendered plus the trailing blank entry; and the block is produced and
enqueued independently of the logger's threshold. -/
theorem c7_backtrace_truncation (stack : List (Option BTFrame)) (depth : Int)
    (l : Logger) :
    backtraceEntries 0 (captureFrames stack) =
      (captureFrames stack).map renderFrame ++ ["\n"] ∧
    (captureFrames stack).length ≤ 64 ∧
    (0 < depth → depth < ((captureFrames stack).length : Int) →
      backtraceEntries depth (captureFrames stack) =
        ((captureFrames stack).take depth.toNat).map renderFrame ++ ["\n"] ∧
      (backtraceEntries depth (captureFrames stack)).length = depth.toNat + 1) ∧
    (∀ p : Priority,
      Logger.BacktraceRun ⟨p, l.pfx, l.flag⟩ depth stack = l.BacktraceRun depth stack) := by
  refine ⟨?_, ?_, ?_, fun p => rfl⟩
  · rw [backtraceEntries]
    simp
  · rw [captureFrames]
    simp [List.length_take]
  · intro hd hdn
    have hcond : ¬(depth = 0 ∨ depth > ((captureFrames stack).length : Int)) := by
      omega
    constructor
    · rw [backtraceEntries, if_neg hcond]
    · rw [backtraceEntries, if_neg hcond]
      simp [List.length_take]
      omega

/-- Witness for C7 at a concrete three-frame stack with depth 2. -/
theorem c7_backtrace_truncation_witness :
    backtraceEntries 2 (captureFrames [some ⟨"f.go", 1, "g"⟩, none, some ⟨"h.go", 2, "k"⟩]) =
      ((captureFrames [some ⟨"f.go", 1, "g"⟩, none, some ⟨"h.go", 2, "k"⟩]).take
          (2 : Int).toNat).map renderFrame ++ ["\n"] ∧
    (backtraceEntries 2
        (captureFrames [some ⟨"f.go", 1, "g"⟩, none, some ⟨"h.go", 2, "k"⟩])).length =
      (2 : Int).toNat + 1 :=
  (c7_backtrace_truncation [some ⟨"f.go", 1, "g"⟩, none, some ⟨"h.go", 2, "k"⟩] 2
    ⟨LOG_NONE, "", 0⟩).2.2.1 (by decide) (by decide)

/-- C8: `NewLogger` routes to the syslog constructor iff the name equals
"SYSLOG" after Unicode case folding (`upperEqSyslog` models the test
`strings.ToUpper(name) == "SYSLOG"` including the non-ASCII preimages such
as U+017F), passing priority, prefix and flags through; any other name is
routed to the file constructor with that name as path, the caller's priority
and flags, and an empty prefix. -/
theorem c8_newlogger_dispatch (name : String) (prio : Priority) (pfx : String)
    (flag : Nat) :
    (upperEqSyslog name = true →
      NewLogger name prio pfx flag = LoggerKind.syslogL prio pfx flag) ∧
    (upperEqSyslog name = false →
      NewLogger name prio pfx flag = LoggerKind.fileL name prio "" flag) := by
  constructor
  · intro h
    rw [NewLogger, if_pos h]
  · intro h
    rw [NewLogger, if_neg (by simp [h])]

/-- Witness for C8: "syslog" and the Unicode-folded "ſYSLOG" (long s
uppercases to S) route to syslog keeping the prefix; a path routes to the
file constructor discarding the prefix. -/
theorem c8_newlogger_dispatch_witness :
    NewLogger "syslog" LOG_INFO "pfx" LstdFlags =
      LoggerKind.syslogL LOG_INFO "pfx" LstdFlags ∧
    NewLogger "ſYSLOG" LOG_INFO "pfx" LstdFlags =
      LoggerKind.syslogL LOG_INFO "pfx" LstdFlags ∧
    NewLogger "/var/log/app.log" LOG_INFO "pfx" LstdFlags =
      LoggerKind.fileL "/var/log/app.log" LOG_INFO "" LstdFlags :=
  ⟨(c8_newlogger_dispatch "syslog" LOG_INFO "pfx" LstdFlags).1 (by decide),
   (c8_newlogger_dispatch "ſYSLOG" LOG_INFO "pfx" LstdFlags).1 (by decide),
   (c8_newlogger_dispatch "/var/log/app.log" LOG_INFO "pfx" LstdFlags).2 (by decide)⟩

/-- C10: the line `Output` enqueues is independent of the logger's prefix
field — two loggers identical except for the prefix produce identical
`Output` results — while the prefix is stored and readable through the
getter/setter pair. -/
theorem c10_prefix_not_rendered (l1 l2 : Logger) (calldepth : Int) (prio : Priority)
    (s : String) (now : GoTime) (caller : Option CallerInfo) (p : String)
    (hprio : l1.prio = l2.prio) (hflag : l1.flag = l2.flag) :
    l1.Output calldepth prio s now caller = l2.Output calldepth prio s now caller ∧
    (l1.SetPfx p).Pfx = p ∧
    (l1.SetPfx p).Output calldepth prio s now caller =
      l1.Output calldepth prio s now caller := by
  obtain ⟨p1, x1, f1⟩ := l1
  obtain ⟨p2, x2, f2⟩ := l2
  simp only at hprio hflag
  subst hprio
  subst hflag
  exact ⟨rfl, rfl, rfl⟩

/-- Witness for C10: two concrete loggers differing only in prefix. -/
theorem c10_prefix_not_rendered_witness :
    Logger.Output ⟨LOG_INFO, "a", LstdFlags⟩ 0 LOG_INFO "m"
        ⟨2009, 1, 23, 1, 23, 23, 123123000⟩ none =
      Logger.Output ⟨LOG_INFO, "b", LstdFlags⟩ 0 LOG_INFO "m"
        ⟨2009, 1, 23, 1, 23, 23, 123123000⟩ none ∧
    (Logger.SetPfx ⟨LOG_INFO, "a", LstdFlags⟩ "q").Pfx = "q" ∧
    (Logger.SetPfx ⟨LOG_INFO, "a", LstdFlags⟩ "q").Output 0 LOG_INFO "m"
        ⟨2009, 1, 23, 1, 23, 23, 123123000⟩ none =
      Logger.Output ⟨LOG_INFO, "a", LstdFlags⟩ 0 LOG_INFO "m"
        ⟨2009, 1, 23, 1, 23, 23, 123123000⟩ none :=
  c10_prefix_not_rendered ⟨LOG_INFO, "a", LstdFlags⟩ ⟨LOG_INFO, "b", LstdFlags⟩ 0
    LOG_INFO "m" ⟨2009, 1, 23, 1, 23, 23, 123123000⟩ none "q" rfl rfl

end GoLogger
